import Mathlib

/-!
Verification of the ZOOpt / Ray Tune tutorial notebook
(`doc/source/tune/examples/zoopt_example.ipynb`).

The notebook defines a toy objective (`evaluate`, `objective`), two search-space
declarations (an inline Tune space `search_config` and a ZOOpt `dim_dict` called
`space`), and drives two `tune.run` invocations with a `ZOOptSearch` algorithm of
budget `num_samples = 10`.

Numeric values are modelled over `ℚ` (the notebook's arithmetic is exact at this
level of abstraction); Python's `ZeroDivisionError` on `0.0 ** (-1)` is modelled
by `Option`.  The external orchestration (`tune.run`, `ZOOptSearch` suggestion and
resolution, `tune.report`) is not part of the source fragment; those pieces are
modelled from the spec and are marked as such in their doc comments.
-/

/-- Runtime value stored in a Tune `config` dictionary: the notebook only ever
puts integers, floats and strings into configurations. -/
inductive Value where
  | int (n : ℤ)
  | real (q : ℚ)
  | str (s : String)
deriving DecidableEq

/-- Configuration mapping from parameter name to value, as an association list
(first binding wins, like a Python dict with unique keys). -/
abbrev Config := List (String × Value)

/-- Reads an integer-valued entry of a config (`config["steps"]`). -/
def getInt (config : Config) (key : String) : Option ℤ :=
  match config.lookup key with
  | some (Value.int n) => some n
  | _ => none

/-- Reads a numeric entry of a config (`config["width"]`, `config["height"]`);
Python arithmetic accepts both ints and floats here. -/
def getNum (config : Config) (key : String) : Option ℚ :=
  match config.lookup key with
  | some (Value.int n) => some (n : ℚ)
  | some (Value.real q) => some q
  | _ => none

/-- Embedding of the notebook's evaluation function

    def evaluate(step, width, height):
        time.sleep(0.1)
        return (0.1 + width * step / 100) ** (-1) + height * 0.1

The `time.sleep(0.1)` delay has no effect on the returned value.  Python raises
`ZeroDivisionError` when `0.0 ** (-1)` is taken, which is modelled by `none`. -/
def evaluate (step width height : ℚ) : Option ℚ :=
  if 1 / 10 + width * step / 100 = 0 then none
  else some ((1 / 10 + width * step / 100)⁻¹ + height * (1 / 10))

/-- Embedding of the body of the notebook's training loop

    for step in range(config["steps"]):
        score = evaluate(step, config["width"], config["height"])
        tune.report(iterations=step, mean_loss=score)

run over an explicit list of step indices.  `tune.report(iterations=step,
mean_loss=score)` is modelled as emitting the pair `(step, score)` on the
returned report stream; the config keys `"width"` and `"height"` are read inside
the loop body, exactly as in the source. -/
def reportLoop (config : Config) : List ℕ → Option (List (ℕ × ℚ))
  | [] => some []
  | step :: rest => do
    let width ← getNum config "width"
    let height ← getNum config "height"
    let score ← evaluate (step : ℚ) width height
    let tail ← reportLoop config rest
    pure ((step, score) :: tail)

/-- Embedding of the notebook's objective function

    def objective(config):
        for step in range(config["steps"]):
            score = evaluate(step, config["width"], config["height"])
            tune.report(iterations=step, mean_loss=score)

The result is the stream of `(iterations, mean_loss)` pairs reported to Tune,
`none` if a config lookup fails or an evaluation raises. -/
def objective (config : Config) : Option (List (ℕ × ℚ)) := do
  let steps ← getInt config "steps"
  reportLoop config (List.range steps.toNat)

/-- Distribution descriptor of one parameter of an inline Tune search space:
a fixed plain value (`"steps": 100`), `tune.randint`, `tune.quniform`, or
`tune.choice`, as used in the notebook's `search_config`. -/
inductive Domain where
  | fixedVal (v : Value)
  | randint (lo hi : ℤ)
  | quniform (lo hi q : ℚ)
  | choice (options : List Value)
deriving DecidableEq

/-- Modelled from the spec: the set of values a sampler may produce for one
inline descriptor (the sampling code lives in the external Tune library, not in
this fragment).  A fixed entry yields exactly its value; `randint 0 10` yields
an integer `width ∈ [0,10]`; `quniform (-10) 10 (1/100)` yields a multiple of
the step `1/100` inside `[-10,10]`; `choice` yields one of the listed options. -/
def Domain.contains : Domain → Value → Prop
  | .fixedVal v0, v => v = v0
  | .randint lo hi, v => ∃ n : ℤ, v = .int n ∧ lo ≤ n ∧ n ≤ hi
  | .quniform lo hi q, v => ∃ x : ℚ, v = .real x ∧ lo ≤ x ∧ x ≤ hi ∧ ∃ k : ℤ, x = k * q
  | .choice options, v => v ∈ options

/-- Embedding of the inline search space of the first invocation

    search_config = {
        "steps": 100,
        "width": tune.randint(0, 10),
        "height": tune.quniform(-10, 10, 1e-2),
        "activation": tune.choice(["relu, tanh"])
    }

Note that the choice list holds the single string `"relu, tanh"`. -/
def search_config : List (String × Domain) :=
  [("steps", Domain.fixedVal (Value.int 100)),
   ("width", Domain.randint 0 10),
   ("height", Domain.quniform (-10) 10 (1 / 100)),
   ("activation", Domain.choice [Value.str "relu, tanh"])]

/-- Modelled from the spec: a trial configuration sampled from an inline search
space binds exactly the declared parameter names, each to a value admitted by
its descriptor. -/
def sampledFrom (decl : List (String × Domain)) (cfg : Config) : Prop :=
  cfg.map Prod.fst = decl.map Prod.fst ∧
  ∀ kd ∈ decl, ∃ v, cfg.lookup kd.1 = some v ∧ Domain.contains kd.2 v

/-- One dimension of a ZOOpt `dim_dict`: a `(ValueType, range, extra)` triple —
continuous `(range, precision)`, discrete `(range, has_order)`, or grid
`(grid_list)`, as listed in the notebook's optional second space. -/
inductive ZDim where
  | continuous (lo hi : ℚ) (precision : ℚ)
  | discrete (lo hi : ℤ) (hasOrder : Bool)
  | grid (gridList : List ℤ)
deriving DecidableEq

/-- Modelled from the spec: the set of values the search algorithm may resolve
for one explicit ZOOpt dimension. -/
def ZDim.contains : ZDim → Value → Prop
  | .continuous lo hi _, v => ∃ x : ℚ, v = .real x ∧ lo ≤ x ∧ x ≤ hi
  | .discrete lo hi _, v => ∃ n : ℤ, v = .int n ∧ lo ≤ n ∧ n ≤ hi
  | .grid gridList, v => ∃ n : ℤ, v = .int n ∧ n ∈ gridList

/-- Embedding of the explicit ZOOpt space of the second invocation

    space = {
        "height": (ValueType.CONTINUOUS, [-10, 10], 1e-2),
        "width": (ValueType.DISCRETE, [0, 10], True),
        "layers": (ValueType.GRID, [4, 8, 16])
    }
-/
def space : List (String × ZDim) :=
  [("height", ZDim.continuous (-10) 10 (1 / 100)),
   ("width", ZDim.discrete 0 10 true),
   ("layers", ZDim.grid [4, 8, 16])]

/-- Embedding of the inline config of the second invocation, `config={"steps": 100}`:
only `"steps"` is declared inline, since `"height"` and `"width"` went into
`ZOOptSearch` via `dim_dict`. -/
def steps_only_config : List (String × Domain) :=
  [("steps", Domain.fixedVal (Value.int 100))]

/-- Modelled from the spec: the parameters resolved by the search algorithm from
its own `dim_dict` bind exactly the declared dimension names, each to a value
admitted by its dimension. -/
def zsampledFrom (dims : List (String × ZDim)) (cfg : Config) : Prop :=
  cfg.map Prod.fst = dims.map Prod.fst ∧
  ∀ kd ∈ dims, ∃ v, cfg.lookup kd.1 = some v ∧ ZDim.contains kd.2 v

/-- Modelled from the spec: in the second invocation a trial's resolved
configuration combines the inline-declared parameters with the parameters
pre-resolved by the search algorithm from its `dim_dict`. -/
def resolvedFrom (decl : List (String × Domain)) (dims : List (String × ZDim))
    (cfg : Config) : Prop :=
  ∃ a b, cfg = a ++ b ∧ sampledFrom decl a ∧ zsampledFrom dims b

/-- Trial budget of the notebook: `num_samples = 1000` is overridden to `10`
for the smoke tests before either run. -/
def num_samples : ℕ := 10

/-- Budget handed to both `ZOOptSearch` constructors: `budget=num_samples`. -/
def zoopt_budget : ℕ := num_samples

/-- Modelled from the spec: the keys a resolved configuration carries are the
union of the inline-declared parameters and the dimensions of the algorithm's
own space declaration. -/
def resolvedKeys (decl : List (String × Domain)) (dims : List (String × ZDim)) :
    List String :=
  decl.map Prod.fst ++ dims.map Prod.fst

/-- Modelled from the spec: the score a finished trial contributes to the
best-configuration summary is the final reported value of the chosen metric
(`mean_loss`, the second component of the last emitted report). -/
def trialScore (obj : Config → Option (List (ℕ × ℚ))) (cfg : Config) : Option ℚ :=
  (obj cfg).bind (fun reports => reports.getLast?.map Prod.snd)

/-- Modelled from the spec: the experiment-execution engine evaluates one trial
per suggested configuration, never exceeding the declared budget `n`, and pairs
each configuration with its final reported metric (trials whose objective fails
contribute no result). -/
def trialResults (obj : Config → Option (List (ℕ × ℚ))) (n : ℕ)
    (suggested : List Config) : List (Config × ℚ) :=
  (suggested.take n).filterMap (fun cfg => (trialScore obj cfg).map (fun s => (cfg, s)))

/-- Modelled from the spec: with metric `mean_loss` and mode `min`, the run's
summary keeps a trial whose score is minimal (first such trial on ties). -/
def bestTrial : List (Config × ℚ) → Option (Config × ℚ)
  | [] => none
  | t :: rest =>
    match bestTrial rest with
    | none => some t
    | some b => if b.2 < t.2 then some b else some t

/-- Modelled from the spec: the driving call `tune.run(objective, search_alg=algo,
metric="mean_loss", mode="min", num_samples=num_samples, config=...)` evaluates at
most `n` suggested configurations and returns the best configuration together
with its score (`analysis.best_config` is the first component). -/
def tune_run (obj : Config → Option (List (ℕ × ℚ))) (n : ℕ)
    (suggested : List Config) : Option (Config × ℚ) :=
  bestTrial (trialResults obj n suggested)

/-- Modelled from the spec: the number of trial evaluations a run performs is
one per suggested configuration actually taken, capped by the budget. -/
def trialsPerformed (n : ℕ) (suggested : List Config) : ℕ :=
  (suggested.take n).length

/-! ### Helper lemmas -/

theorem lookup_none {β : Type} :
    ∀ (c : List (String × β)) (k : String), k ∉ c.map Prod.fst → c.lookup k = none
  | [], _, _ => rfl
  | (a, _) :: rest, k, h => by
    have h1 : ¬(k = a ∨ k ∈ rest.map Prod.fst) := by simpa using h
    push_neg at h1
    rw [List.lookup_cons]
    have hk : (k == a) = false := beq_eq_false_iff_ne.mpr h1.1
    simp only [hk]
    exact lookup_none rest k h1.2

theorem lookup_app_left {β : Type} :
    ∀ (c : List (String × β)) (d : List (String × β)) (k : String) (v : β),
      c.lookup k = some v → (c ++ d).lookup k = some v
  | [], _, _, _, h => by simp [List.lookup] at h
  | (_, _) :: rest, d, k, v, h => by
    rw [List.cons_append, List.lookup_cons]
    rw [List.lookup_cons] at h
    cases hk : k == _ with
    | true => simp only [hk] at h ⊢; exact h
    | false => simp only [hk] at h ⊢; exact lookup_app_left rest d k v h

theorem lookup_app_right {β : Type} :
    ∀ (c : List (String × β)) (d : List (String × β)) (k : String),
      c.lookup k = none → (c ++ d).lookup k = d.lookup k
  | [], _, _, _ => rfl
  | (_, _) :: rest, d, k, h => by
    rw [List.cons_append, List.lookup_cons]
    rw [List.lookup_cons] at h
    cases hk : k == _ with
    | true => simp only [hk] at h; exact Option.noConfusion h
    | false => simp only [hk] at h ⊢; exact lookup_app_right rest d k h

theorem evaluate_base_pos (s w : ℚ) (hs : 0 ≤ s) (hw : 0 ≤ w) :
    (0 : ℚ) < 1 / 10 + w * s / 100 := by
  have h0 : (0 : ℚ) ≤ w * s / 100 := div_nonneg (mul_nonneg hw hs) (by norm_num)
  linarith

theorem evaluate_eq (s w h : ℚ) (hs : 0 ≤ s) (hw : 0 ≤ w) :
    evaluate s w h = some ((1 / 10 + w * s / 100)⁻¹ + h * (1 / 10)) := by
  rw [evaluate, if_neg (evaluate_base_pos s w hs hw).ne']

theorem reportLoop_eq (cfg : Config) (w h : ℚ)
    (hw : getNum cfg "width" = some w) (hh : getNum cfg "height" = some h)
    (hw0 : 0 ≤ w) :
    ∀ l : List ℕ,
      reportLoop cfg l =
        some (l.map fun (i : ℕ) => (i, (1 / 10 + w * (i : ℚ) / 100)⁻¹ + h * (1 / 10)))
  | [] => rfl
  | i :: rest => by
    simp only [reportLoop, hw, hh, evaluate_eq (i : ℚ) w h (by positivity) hw0,
      reportLoop_eq cfg w h hw hh hw0 rest, Option.bind_eq_bind, Option.some_bind,
      List.map_cons]
    rfl

theorem bestTrial_none : ∀ l : List (Config × ℚ), bestTrial l = none → l = []
  | [], _ => rfl
  | t :: rest, h => by
    simp only [bestTrial] at h
    cases hr : bestTrial rest with
    | none => rw [hr] at h; exact Option.noConfusion h
    | some br =>
      rw [hr] at h
      dsimp only at h
      by_cases hlt : br.2 < t.2
      · rw [if_pos hlt] at h; exact Option.noConfusion h
      · rw [if_neg hlt] at h; exact Option.noConfusion h

theorem bestTrial_mem : ∀ (l : List (Config × ℚ)) (b : Config × ℚ),
    bestTrial l = some b → b ∈ l
  | [], b, h => Option.noConfusion h
  | t :: rest, b, h => by
    simp only [bestTrial] at h
    cases hr : bestTrial rest with
    | none =>
      rw [hr] at h
      exact (Option.some_inj.mp h) ▸ List.mem_cons_self t rest
    | some br =>
      rw [hr] at h
      dsimp only at h
      by_cases hlt : br.2 < t.2
      · rw [if_pos hlt] at h
        exact List.mem_cons_of_mem t (Option.some_inj.mp h ▸ bestTrial_mem rest br hr)
      · rw [if_neg hlt] at h
        exact (Option.some_inj.mp h) ▸ List.mem_cons_self t rest

theorem bestTrial_le : ∀ (l : List (Config × ℚ)) (b : Config × ℚ),
    bestTrial l = some b → ∀ t ∈ l, b.2 ≤ t.2
  | [], _, h => Option.noConfusion h
  | t :: rest, b, h => by
    simp only [bestTrial] at h
    cases hr : bestTrial rest with
    | none =>
      rw [hr] at h
      have hb : t = b := Option.some_inj.mp h
      intro x hx
      rcases List.mem_cons.mp hx with rfl | hx
      · exact hb ▸ le_refl _
      · rw [bestTrial_none rest hr] at hx
        exact absurd hx (List.not_mem_nil x)
    | some br =>
      rw [hr] at h
      dsimp only at h
      intro x hx
      by_cases hlt : br.2 < t.2
      · rw [if_pos hlt] at h
        have hb : br = b := Option.some_inj.mp h
        rcases List.mem_cons.mp hx with rfl | hx
        · exact hb ▸ le_of_lt hlt
        · exact hb ▸ bestTrial_le rest br hr x hx
      · rw [if_neg hlt] at h
        have hb : t = b := Option.some_inj.mp h
        rcases List.mem_cons.mp hx with rfl | hx
        · exact hb ▸ le_refl _
        · exact hb ▸ le_trans (le_of_not_lt hlt) (bestTrial_le rest br hr x hx)

theorem reportLoop_congr (c1 c2 : Config)
    (hw : getNum c1 "width" = getNum c2 "width")
    (hh : getNum c1 "height" = getNum c2 "height") :
    ∀ l : List ℕ, reportLoop c1 l = reportLoop c2 l
  | [] => rfl
  | i :: rest => by
    simp only [reportLoop, hw, hh, reportLoop_congr c1 c2 hw hh rest]

theorem tune_run_best_le (obj : Config → Option (List (ℕ × ℚ))) (n : ℕ)
    (suggested : List Config) (bc : Config) (bs : ℚ)
    (hrun : tune_run obj n suggested = some (bc, bs)) :
    ∀ cfg ∈ suggested.take n, ∀ s, trialScore obj cfg = some s → bs ≤ s := by
  intro cfg hc s hs
  have hmem : (cfg, s) ∈ trialResults obj n suggested := by
    rw [trialResults]
    exact List.mem_filterMap.mpr ⟨cfg, hc, by rw [hs]; rfl⟩
  exact bestTrial_le _ _ hrun (cfg, s) hmem

theorem tune_run_config_mem (obj : Config → Option (List (ℕ × ℚ))) (n : ℕ)
    (suggested : List Config) (bc : Config) (bs : ℚ)
    (hrun : tune_run obj n suggested = some (bc, bs)) : bc ∈ suggested := by
  have hmem := bestTrial_mem _ _ hrun
  rw [trialResults] at hmem
  rcases List.mem_filterMap.mp hmem with ⟨c, hc, heq⟩
  cases hsc : trialScore obj c with
  | none => rw [hsc] at heq; exact Option.noConfusion heq
  | some s =>
    rw [hsc] at heq
    have hpair : (c, s) = (bc, bs) := Option.some_inj.mp heq
    have hcb : c = bc := congrArg Prod.fst hpair
    exact hcb ▸ List.take_subset n suggested hc

/-! ### Claims -/

/-- C1 (amended): for every step ≥ 0 and width ≥ 0 — which covers every step in
`range(steps)` and every width in the declared spaces — and every height,
`evaluate` returns exactly `(0.1 + width*step/100)^(-1) + height*0.1`; apart
from the fixed delay it is a pure function of its three arguments.  The
unrestricted claim fails: where the base is zero (width = -10, step = 1) the
code raises `ZeroDivisionError` instead, see the counterexample below. -/
theorem evaluate_formula (step width height : ℚ)
    (hstep : 0 ≤ step) (hwidth : 0 ≤ width) :
    evaluate step width height =
      some ((1 / 10 + width * step / 100)⁻¹ + height * (1 / 10)) :=
  evaluate_eq step width height hstep hwidth

/-- Witness for C1 at step 1, width 5, height 3. -/
theorem evaluate_formula_witness :
    (0 : ℚ) ≤ 1 ∧ (0 : ℚ) ≤ 5 ∧
    evaluate 1 5 3 = some ((1 / 10 + 5 * 1 / 100)⁻¹ + 3 * (1 / 10)) :=
  ⟨by norm_num, by norm_num, evaluate_formula 1 5 3 (by norm_num) (by norm_num)⟩

/-- C1 counterexample: at step 1, width -10 (and height 3) the base
`0.1 + width*step/100` is exactly zero — also in Python floats — so the code
raises `ZeroDivisionError` (modelled `none`) instead of returning the claimed
formula. -/
theorem evaluate_formula_counterexample :
    evaluate 1 (-10) 3 = none ∧
    evaluate 1 (-10) 3 ≠ some ((1 / 10 + (-10) * 1 / 100)⁻¹ + 3 * (1 / 10)) := by
  have h : evaluate 1 (-10) 3 = none := by
    rw [evaluate, if_pos (by norm_num)]
  exact ⟨h, by rw [h]; exact fun hc => Option.noConfusion hc⟩

/-- C9: for nonnegative step and width the base `0.1 + width*step/100` is at
least `0.1`, hence strictly positive, so the power `(-1)` never divides by zero
and `evaluate` is total there. -/
theorem evaluate_total (step width height : ℚ)
    (hstep : 0 ≤ step) (hwidth : 0 ≤ width) :
    1 / 10 ≤ 1 / 10 + width * step / 100 ∧
    0 < 1 / 10 + width * step / 100 ∧
    (evaluate step width height).isSome := by
  have h0 : (0 : ℚ) ≤ width * step / 100 :=
    div_nonneg (mul_nonneg hwidth hstep) (by norm_num)
  refine ⟨by linarith, evaluate_base_pos step width hstep hwidth, ?_⟩
  rw [evaluate_eq step width height hstep hwidth]
  rfl

/-- Witness for C9 at step 2, width 3, height -1. -/
theorem evaluate_total_witness :
    (0 : ℚ) ≤ 2 ∧ (0 : ℚ) ≤ 3 ∧
    ((1 : ℚ) / 10 ≤ 1 / 10 + 3 * 2 / 100 ∧ (0 : ℚ) < 1 / 10 + 3 * 2 / 100 ∧
      (evaluate 2 3 (-1)).isSome) :=
  ⟨by norm_num, by norm_num, evaluate_total 2 3 (-1) (by norm_num) (by norm_num)⟩

/-- C2 (amended): on a config binding "steps", "width" and "height" with a
nonnegative width — as every declared space guarantees — `objective` emits
exactly `steps` reports, the i-th being the pair `(iterations = i, mean_loss =
evaluate i width height)`, for `i = 0, ..., steps-1` in increasing order; the
emitted stream is its only interaction with the orchestration.  For a negative
width the loop can instead crash mid-iteration with `ZeroDivisionError`, see
the counterexample below. -/
theorem objective_report_stream (cfg : Config) (steps : ℕ) (w h : ℚ)
    (hsteps : getInt cfg "steps" = some (steps : ℤ))
    (hw : getNum cfg "width" = some w)
    (hh : getNum cfg "height" = some h)
    (hw0 : 0 ≤ w) :
    objective cfg =
      some ((List.range steps).map fun (i : ℕ) =>
        (i, (1 / 10 + w * (i : ℚ) / 100)⁻¹ + h * (1 / 10))) ∧
    ∀ i ∈ List.range steps,
      evaluate (i : ℚ) w h = some ((1 / 10 + w * (i : ℚ) / 100)⁻¹ + h * (1 / 10)) := by
  constructor
  · simp only [objective, hsteps, Option.bind_eq_bind, Option.some_bind,
      Int.toNat_natCast]
    exact reportLoop_eq cfg w h hw hh hw0 _
  · intro i _
    exact evaluate_eq (i : ℚ) w h (by positivity) hw0

/-- Witness for C2 on the config `{"steps": 2, "width": 1, "height": 1/2}`. -/
theorem objective_report_stream_witness :
    getInt [("steps", Value.int 2), ("width", Value.int 1),
        ("height", Value.real (1 / 2))] "steps" = some ((2 : ℕ) : ℤ) ∧
    (0 : ℚ) ≤ 1 ∧
    objective [("steps", Value.int 2), ("width", Value.int 1),
        ("height", Value.real (1 / 2))] =
      some ((List.range 2).map fun (i : ℕ) =>
        (i, (1 / 10 + 1 * (i : ℚ) / 100)⁻¹ + (1 / 2) * (1 / 10))) :=
  ⟨rfl, by norm_num,
    (objective_report_stream
      [("steps", Value.int 2), ("width", Value.int 1), ("height", Value.real (1 / 2))]
      2 1 (1 / 2) rfl rfl rfl (by norm_num)).1⟩

/-- C2 counterexample: the config binds all three keys steps = 2, width = -10,
height = 0, yet the loop crashes with `ZeroDivisionError` at step 1 (the base
is zero there), so `objective` yields `none` rather than reporting a pair for
each of the 2 steps. -/
theorem objective_report_stream_counterexample :
    getInt [("steps", Value.int 2), ("width", Value.int (-10)),
      ("height", Value.real 0)] "steps" = some 2 ∧
    getNum [("steps", Value.int 2), ("width", Value.int (-10)),
      ("height", Value.real 0)] "width" = some ((-10 : ℤ) : ℚ) ∧
    getNum [("steps", Value.int 2), ("width", Value.int (-10)),
      ("height", Value.real 0)] "height" = some 0 ∧
    objective [("steps", Value.int 2), ("width", Value.int (-10)),
      ("height", Value.real 0)] = none := by
  refine ⟨rfl, rfl, rfl, ?_⟩
  have hst : getInt [("steps", Value.int 2), ("width", Value.int (-10)),
      ("height", Value.real 0)] "steps" = some 2 := rfl
  have hw : getNum [("steps", Value.int 2), ("width", Value.int (-10)),
      ("height", Value.real 0)] "width" = some ((-10 : ℤ) : ℚ) := rfl
  have hh : getNum [("steps", Value.int 2), ("width", Value.int (-10)),
      ("height", Value.real 0)] "height" = some 0 := rfl
  have hrange : List.range (2 : ℤ).toNat = [0, 1] := rfl
  have he1 : evaluate ((1 : ℕ) : ℚ) ((-10 : ℤ) : ℚ) 0 = none := by
    rw [evaluate, if_pos (by push_cast; norm_num)]
  simp only [objective, hst, Option.bind_eq_bind, Option.some_bind, hrange,
    reportLoop, hw, hh, he1, Option.none_bind, Option.bind_none]

/-- C10: the "activation" choice list holds exactly the single string
"relu, tanh" (not two separate values), so activation is the same constant in
every sampled configuration; and `objective` never reads "activation", so its
report stream is unchanged by any difference confined to that key. -/
theorem activation_constant_unused (cfg c1 c2 : Config)
    (hcfg : sampledFrom search_config cfg)
    (hst : getInt c1 "steps" = getInt c2 "steps")
    (hw : getNum c1 "width" = getNum c2 "width")
    (hh : getNum c1 "height" = getNum c2 "height") :
    search_config.lookup "activation" =
      some (Domain.choice [Value.str "relu, tanh"]) ∧
    cfg.lookup "activation" = some (Value.str "relu, tanh") ∧
    objective c1 = objective c2 := by
  refine ⟨rfl, ?_, ?_⟩
  · obtain ⟨v, hv, hmem⟩ := hcfg.2 ("activation", Domain.choice [Value.str "relu, tanh"])
      (by simp [search_config])
    have hveq : v = Value.str "relu, tanh" := by
      simpa [Domain.contains] using hmem
    rw [hv, hveq]
  · have hrl := reportLoop_congr c1 c2 hw hh
    simp only [objective, hst]
    cases getInt c2 "steps" with
    | none => rfl
    | some n => simp only [Option.bind_eq_bind, Option.some_bind, hrl]

/-- Witness for C10: a concrete sampled configuration, and two configs that
differ only in "activation" and get identical report streams. -/
theorem activation_constant_unused_witness :
    sampledFrom search_config
      [("steps", Value.int 100), ("width", Value.int 3),
       ("height", Value.real (1 / 2)), ("activation", Value.str "relu, tanh")] ∧
    objective [("steps", Value.int 1), ("width", Value.int 0),
        ("height", Value.real 0), ("activation", Value.str "relu, tanh")] =
      objective [("steps", Value.int 1), ("width", Value.int 0),
        ("height", Value.real 0), ("activation", Value.str "tanh")] := by
  have hsamp : sampledFrom search_config
      [("steps", Value.int 100), ("width", Value.int 3),
       ("height", Value.real (1 / 2)), ("activation", Value.str "relu, tanh")] := by
    refine ⟨rfl, ?_⟩
    intro kd hkd
    fin_cases hkd
    · exact ⟨Value.int 100, rfl, rfl⟩
    · exact ⟨Value.int 3, rfl, 3, rfl, by norm_num, by norm_num⟩
    · exact ⟨Value.real (1 / 2), rfl, 1 / 2, rfl, by norm_num, by norm_num, 50, by norm_num⟩
    · exact ⟨Value.str "relu, tanh", rfl, by simp [Domain.contains]⟩
  exact ⟨hsamp,
    (activation_constant_unused _
      [("steps", Value.int 1), ("width", Value.int 0),
       ("height", Value.real 0), ("activation", Value.str "relu, tanh")]
      [("steps", Value.int 1), ("width", Value.int 0),
       ("height", Value.real 0), ("activation", Value.str "tanh")]
      hsamp rfl rfl rfl).2.2⟩

/-- C5: the inline space of the first invocation declares exactly steps fixed at
100, width an integer range on [0,10], height a quantized uniform range on
[-10,10] with step 0.01, and activation a categorical choice; every sampled
configuration keeps width and height within those bounds. -/
theorem search_space_bounds (cfg : Config) (hcfg : sampledFrom search_config cfg) :
    search_config =
      [("steps", Domain.fixedVal (Value.int 100)),
       ("width", Domain.randint 0 10),
       ("height", Domain.quniform (-10) 10 (1 / 100)),
       ("activation", Domain.choice [Value.str "relu, tanh"])] ∧
    (∃ w : ℚ, getNum cfg "width" = some w ∧ 0 ≤ w ∧ w ≤ 10) ∧
    (∃ h : ℚ, getNum cfg "height" = some h ∧ -10 ≤ h ∧ h ≤ 10) := by
  refine ⟨rfl, ?_, ?_⟩
  · obtain ⟨v, hv, hmem⟩ := hcfg.2 ("width", Domain.randint 0 10)
      (by simp [search_config])
    obtain ⟨n, rfl, h0, h10⟩ := hmem
    refine ⟨(n : ℚ), ?_, by exact_mod_cast h0, by exact_mod_cast h10⟩
    simp only [getNum, hv]
  · obtain ⟨v, hv, hmem⟩ := hcfg.2 ("height", Domain.quniform (-10) 10 (1 / 100))
      (by simp [search_config])
    obtain ⟨x, rfl, hlo, hhi, -⟩ := hmem
    refine ⟨x, ?_, hlo, hhi⟩
    simp only [getNum, hv]

/-- Witness for C5 on a concrete sampled configuration. -/
theorem search_space_bounds_witness :
    sampledFrom search_config
      [("steps", Value.int 100), ("width", Value.int 9),
       ("height", Value.real (-3 / 4)), ("activation", Value.str "relu, tanh")] ∧
    ((∃ w : ℚ, getNum [("steps", Value.int 100), ("width", Value.int 9),
        ("height", Value.real (-3 / 4)), ("activation", Value.str "relu, tanh")]
        "width" = some w ∧ 0 ≤ w ∧ w ≤ 10) ∧
     (∃ h : ℚ, getNum [("steps", Value.int 100), ("width", Value.int 9),
        ("height", Value.real (-3 / 4)), ("activation", Value.str "relu, tanh")]
        "height" = some h ∧ -10 ≤ h ∧ h ≤ 10)) := by
  have hsamp : sampledFrom search_config
      [("steps", Value.int 100), ("width", Value.int 9),
       ("height", Value.real (-3 / 4)), ("activation", Value.str "relu, tanh")] := by
    refine ⟨rfl, ?_⟩
    intro kd hkd
    fin_cases hkd
    · exact ⟨Value.int 100, rfl, rfl⟩
    · exact ⟨Value.int 9, rfl, 9, rfl, by norm_num, by norm_num⟩
    · exact ⟨Value.real (-3 / 4), rfl, -3 / 4, rfl, by norm_num, by norm_num, -75, by norm_num⟩
    · exact ⟨Value.str "relu, tanh", rfl, by simp [Domain.contains]⟩
  exact ⟨hsamp, (search_space_bounds _ hsamp).2⟩

/-- C7: in the second invocation the explicit ZOOpt triples are exactly height
continuous on [-10,10] with precision 0.01, width discrete on [0,10] with
order, and layers a grid over [4, 8, 16]; the inline config passed to
`tune.run` declares only "steps", so no parameter appears in both
declarations. -/
theorem declarations_disjoint :
    space =
      [("height", ZDim.continuous (-10) 10 (1 / 100)),
       ("width", ZDim.discrete 0 10 true),
       ("layers", ZDim.grid [4, 8, 16])] ∧
    steps_only_config.map Prod.fst = ["steps"] ∧
    space.map Prod.fst = ["height", "width", "layers"] ∧
    ∀ k ∈ space.map Prod.fst, k ∉ steps_only_config.map Prod.fst := by
  refine ⟨rfl, rfl, rfl, ?_⟩
  decide

/-- C4: the number of trial evaluations never exceeds the declared budget
`num_samples = 10`, the same number handed to `ZOOptSearch` as its budget and
to `tune.run` as `num_samples`. -/
theorem budget_respected (obj : Config → Option (List (ℕ × ℚ)))
    (suggested : List Config) :
    trialsPerformed num_samples suggested ≤ num_samples ∧
    (trialResults obj num_samples suggested).length ≤ num_samples ∧
    num_samples = 10 ∧ zoopt_budget = num_samples := by
  refine ⟨?_, ?_, rfl, rfl⟩
  · rw [trialsPerformed, List.length_take]
    exact min_le_left _ _
  · rw [trialResults]
    refine le_trans (List.length_filterMap_le _ _) ?_
    rw [List.length_take]
    exact min_le_left _ _

/-- C3: with metric `mean_loss` and mode `min`, the score of the returned best
configuration is at most the final reported `mean_loss` of every individually
sampled configuration evaluated during the run. -/
theorem best_score_minimal (obj : Config → Option (List (ℕ × ℚ)))
    (suggested : List Config) (bc : Config) (bs : ℚ)
    (hrun : tune_run obj num_samples suggested = some (bc, bs)) :
    ∀ cfg ∈ suggested.take num_samples, ∀ s, trialScore obj cfg = some s → bs ≤ s :=
  tune_run_best_le obj num_samples suggested bc bs hrun

/-- Witness for C3 on a concrete two-trial run with a toy objective reporting
the config size. -/
theorem best_score_minimal_witness :
    tune_run (fun c => some [(0, (c.length : ℚ))]) num_samples
      [[], [("a", Value.int 0)]] = some ([], 0) ∧
    (0 : ℚ) ≤ 1 :=
  ⟨by norm_num [tune_run, trialResults, trialScore, num_samples, bestTrial,
      List.filterMap_cons],
    best_score_minimal (fun c => some [(0, (c.length : ℚ))])
      [[], [("a", Value.int 0)]] [] 0
      (by norm_num [tune_run, trialResults, trialScore, num_samples, bestTrial,
        List.filterMap_cons])
      [("a", Value.int 0)] (by decide) 1
      (by norm_num [trialScore])⟩

/-- C6: the keys of the reported best configuration are exactly the union of
the inline-declared parameters and the parameters the search algorithm resolves
from its own space declaration: all four inline keys in the first invocation,
and in the second invocation exactly steps together with height, width and
layers, with no key missing or added. -/
theorem best_config_keys (obj : Config → Option (List (ℕ × ℚ)))
    (sug1 sug2 : List Config) (bc1 bc2 : Config) (bs1 bs2 : ℚ)
    (hk1 : ∀ c ∈ sug1, c.map Prod.fst = resolvedKeys search_config [])
    (hr1 : tune_run obj num_samples sug1 = some (bc1, bs1))
    (hk2 : ∀ c ∈ sug2, c.map Prod.fst = resolvedKeys steps_only_config space)
    (hr2 : tune_run obj num_samples sug2 = some (bc2, bs2)) :
    bc1.map Prod.fst = ["steps", "width", "height", "activation"] ∧
    bc2.map Prod.fst = ["steps", "height", "width", "layers"] := by
  have h1 := hk1 bc1 (tune_run_config_mem obj num_samples sug1 bc1 bs1 hr1)
  have h2 := hk2 bc2 (tune_run_config_mem obj num_samples sug2 bc2 bs2 hr2)
  exact ⟨h1.trans rfl, h2.trans rfl⟩

/-- Witness for C6 on two concrete one-trial runs with a toy objective. -/
theorem best_config_keys_witness :
    tune_run (fun c => some [(0, (c.length : ℚ))]) num_samples
      [[("steps", Value.int 0), ("width", Value.int 0), ("height", Value.int 0),
        ("activation", Value.int 0)]] =
      some ([("steps", Value.int 0), ("width", Value.int 0), ("height", Value.int 0),
        ("activation", Value.int 0)], 4) ∧
    tune_run (fun c => some [(0, (c.length : ℚ))]) num_samples
      [[("steps", Value.int 0), ("height", Value.int 0), ("width", Value.int 0),
        ("layers", Value.int 0)]] =
      some ([("steps", Value.int 0), ("height", Value.int 0), ("width", Value.int 0),
        ("layers", Value.int 0)], 4) ∧
    ([("steps", Value.int 0), ("width", Value.int 0), ("height", Value.int 0),
        ("activation", Value.int 0)] : Config).map Prod.fst =
      ["steps", "width", "height", "activation"] ∧
    ([("steps", Value.int 0), ("height", Value.int 0), ("width", Value.int 0),
        ("layers", Value.int 0)] : Config).map Prod.fst =
      ["steps", "height", "width", "layers"] := by
  have hr1 : tune_run (fun c => some [(0, (c.length : ℚ))]) num_samples
      [[("steps", Value.int 0), ("width", Value.int 0), ("height", Value.int 0),
        ("activation", Value.int 0)]] =
      some ([("steps", Value.int 0), ("width", Value.int 0), ("height", Value.int 0),
        ("activation", Value.int 0)], 4) := by
    norm_num [tune_run, trialResults, trialScore, num_samples, bestTrial,
      List.filterMap_cons]
  have hr2 : tune_run (fun c => some [(0, (c.length : ℚ))]) num_samples
      [[("steps", Value.int 0), ("height", Value.int 0), ("width", Value.int 0),
        ("layers", Value.int 0)]] =
      some ([("steps", Value.int 0), ("height", Value.int 0), ("width", Value.int 0),
        ("layers", Value.int 0)], 4) := by
    norm_num [tune_run, trialResults, trialScore, num_samples, bestTrial,
      List.filterMap_cons]
  have hkeys := best_config_keys (fun c => some [(0, (c.length : ℚ))])
    [[("steps", Value.int 0), ("width", Value.int 0), ("height", Value.int 0),
      ("activation", Value.int 0)]]
    [[("steps", Value.int 0), ("height", Value.int 0), ("width", Value.int 0),
      ("layers", Value.int 0)]]
    _ _ _ _ (by intro c hc; rw [List.mem_singleton.mp hc]; rfl) hr1
    (by intro c hc; rw [List.mem_singleton.mp hc]; rfl) hr2
  exact ⟨hr1, hr2, hkeys.1, hkeys.2⟩

/-- C8: in both invocations every parameter the objective reads — "steps",
"width" and "height" — is present in the resolved configuration, supplied
either by the trial's inline search space or pre-resolved by the search
algorithm from its dim_dict. -/
theorem required_params_present (cfg1 cfg2 : Config)
    (h1 : sampledFrom search_config cfg1)
    (h2 : resolvedFrom steps_only_config space cfg2) :
    ((cfg1.lookup "steps").isSome ∧ (cfg1.lookup "width").isSome ∧
      (cfg1.lookup "height").isSome) ∧
    ((cfg2.lookup "steps").isSome ∧ (cfg2.lookup "width").isSome ∧
      (cfg2.lookup "height").isSome) := by
  constructor
  · refine ⟨?_, ?_, ?_⟩
    · obtain ⟨v, hv, -⟩ := h1.2 ("steps", Domain.fixedVal (Value.int 100))
        (by simp [search_config])
      rw [hv]; rfl
    · obtain ⟨v, hv, -⟩ := h1.2 ("width", Domain.randint 0 10)
        (by simp [search_config])
      rw [hv]; rfl
    · obtain ⟨v, hv, -⟩ := h1.2 ("height", Domain.quniform (-10) 10 (1 / 100))
        (by simp [search_config])
      rw [hv]; rfl
  · obtain ⟨a, b, rfl, hsa, hzb⟩ := h2
    refine ⟨?_, ?_, ?_⟩
    · obtain ⟨v, hv, -⟩ := hsa.2 ("steps", Domain.fixedVal (Value.int 100))
        (by simp [steps_only_config])
      rw [lookup_app_left a b "steps" v hv]; rfl
    · have hnone : a.lookup "width" = none := by
        refine lookup_none a "width" ?_
        rw [hsa.1]
        decide
      rw [lookup_app_right a b "width" hnone]
      obtain ⟨v, hv, -⟩ := hzb.2 ("width", ZDim.discrete 0 10 true) (by simp [space])
      rw [hv]; rfl
    · have hnone : a.lookup "height" = none := by
        refine lookup_none a "height" ?_
        rw [hsa.1]
        decide
      rw [lookup_app_right a b "height" hnone]
      obtain ⟨v, hv, -⟩ := hzb.2 ("height", ZDim.continuous (-10) 10 (1 / 100))
        (by simp [space])
      rw [hv]; rfl

/-- Witness for C8 on concrete resolved configurations of both invocations. -/
theorem required_params_present_witness :
    sampledFrom search_config
      [("steps", Value.int 100), ("width", Value.int 0),
       ("height", Value.real 10), ("activation", Value.str "relu, tanh")] ∧
    resolvedFrom steps_only_config space
      ([("steps", Value.int 100)] ++
       [("height", Value.real 0), ("width", Value.int 5), ("layers", Value.int 8)]) ∧
    (([("steps", Value.int 100)] ++
       [("height", Value.real 0), ("width", Value.int 5),
        ("layers", Value.int 8)] : Config).lookup "width").isSome := by
  have hsamp : sampledFrom search_config
      [("steps", Value.int 100), ("width", Value.int 0),
       ("height", Value.real 10), ("activation", Value.str "relu, tanh")] := by
    refine ⟨rfl, ?_⟩
    intro kd hkd
    fin_cases hkd
    · exact ⟨Value.int 100, rfl, rfl⟩
    · exact ⟨Value.int 0, rfl, 0, rfl, by norm_num, by norm_num⟩
    · exact ⟨Value.real 10, rfl, 10, rfl, by norm_num, by norm_num, 1000, by norm_num⟩
    · exact ⟨Value.str "relu, tanh", rfl, by simp [Domain.contains]⟩
  have hres : resolvedFrom steps_only_config space
      ([("steps", Value.int 100)] ++
       [("height", Value.real 0), ("width", Value.int 5), ("layers", Value.int 8)]) := by
    refine ⟨[("steps", Value.int 100)],
      [("height", Value.real 0), ("width", Value.int 5), ("layers", Value.int 8)],
      rfl, ⟨rfl, ?_⟩, ⟨rfl, ?_⟩⟩
    · intro kd hkd
      fin_cases hkd
      exact ⟨Value.int 100, rfl, rfl⟩
    · intro kd hkd
      fin_cases hkd
      · exact ⟨Value.real 0, rfl, 0, rfl, by norm_num, by norm_num⟩
      · exact ⟨Value.int 5, rfl, 5, rfl, by norm_num, by norm_num⟩
      · exact ⟨Value.int 8, rfl, 8, rfl, by decide⟩
  exact ⟨hsamp, hres,
    (required_params_present _ _ hsamp hres).2.2.1⟩
